import Mathlib

/-!
Verification of the polymer-analyzer core against its specification.

This file shallowly embeds the parts of the source that the checked
properties are about:

* the Analyzer document cache and graph engine (`analyzeRoot`,
  `_scanResolved`, `_loadResolved`, `_scanImport`, `_scanInlineDocument`),
* the behavior scanner (`BehaviorVisitor._initBehavior`,
  `mergeBehavior`, `_parseChainedBehaviors`, `isSimpleBehaviorArray`,
  `dedupe`),
* `getAttachedCommentText` from the inline-document model,
* the editor RPC channel response handler (`_handleResponse`).

External collaborators that are not part of the repository source
(dom5, the jsdoc utilities, estree, the per-property handler table) are
modelled as explicit inputs; definitions derived from the specification
rather than from source code carry a doc comment starting with
"Modelled from the spec:".
-/

/-- Source position, from editor-service.ts (line and column, 0-based). -/
structure SourcePosition where
  line : Nat
  column : Nat
deriving DecidableEq, Repr

/-- Source range, from the feature model: file plus start and end positions. -/
structure SourceRange where
  file : String
  startPos : SourcePosition
  endPos : SourcePosition
deriving DecidableEq, Repr

/-- Location offset of an inline document within its container, from
model/source-range: a line and column delta plus the container filename. -/
structure LocationOffset where
  line : Nat
  col : Nat
  filename : Option String
deriving DecidableEq, Repr

/-- Warning severity, from the Severity enum in editor-service.ts. -/
inductive Severity where
  | error
  | warning
  | info
deriving DecidableEq, Repr

/-- Warning record, from editor-service.ts: message, source range, severity
and a short code. -/
structure Warning where
  message : String
  sourceRange : SourceRange
  severity : Severity
  code : String
deriving DecidableEq, Repr

/-- JavaScript string truthiness for an optional string: undefined and the
empty string are falsy, every other string is truthy. -/
def strTruthy : Option String → Bool
  | none => false
  | some s => !(s == "")

/-- JavaScript substring containment test, the shape used as
s.indexOf(pat) together with a comparison against -1 in the source:
true when pat occurs somewhere inside s (always true for the empty
pattern, as in JavaScript). -/
def containsSub (s pat : String) : Bool :=
  (List.range (s.length + 1)).any (fun i => List.isPrefixOf pat.data (s.data.drop i))

/-- JavaScript logical-or over optional strings, as used in the source for
explicitName with a fallback to symbol: the first operand wins when it is
truthy, otherwise the second operand is the result. -/
def jsOr (a b : Option String) : Option String :=
  if strTruthy a then a else b

/-- Number of leading space characters of one line. -/
def countLeadingSpaces (line : String) : Nat :=
  (line.data.takeWhile (fun c => c == ' ')).length

/-- Modelled from the spec: jsdoc.unindent (javascript/jsdoc.ts is not in
src). The spec only says attached comments are returned unindented; we
model unindenting as removing, from every line, the smallest leading-space
count found on any non-blank line. -/
def unindent (text : String) : String :=
  if text == "" then text
  else
    let lines := text.split (fun c => c == '\n')
    let indents := lines.filterMap
      (fun l => if l.trim == "" then none else some (countLeadingSpaces l))
    let ind := match indents with
      | [] => 0
      | x :: xs => xs.foldl Nat.min x
    String.intercalate "\n"
      (lines.map (fun l =>
        if l.data.take ind = List.replicate ind ' ' then String.mk (l.data.drop ind)
        else l))

/-- Association-list lookup, modelling Map.get keyed by resolved URL. -/
def lookupA {α : Type} : List (String × α) → String → Option α
  | [], _ => none
  | (k, v) :: rest, key => if k = key then some v else lookupA rest key

/-- Association-list deletion, modelling Map.delete keyed by resolved URL
(Map keys are unique, so removing every pair with the key is the same as
removing the one entry). -/
def mapDelete {α : Type} : List (String × α) → String → List (String × α)
  | [], _ => []
  | (k, v) :: rest, key =>
      if k = key then mapDelete rest key else (k, v) :: mapDelete rest key

/-- Embedding of getAttachedCommentText from model/inline-document.ts. The
dom5 prior-comment walk is a collaborator; its output (the data strings of
the comment nodes found walking backwards, nearest first) is the input
here. The function takes the nearest prior comment, drops it when it is
absent, empty, or matches the license-comment pattern, and otherwise
returns it unindented and trimmed. -/
def getAttachedCommentText (parentComments : List String) : Option String :=
  match parentComments.head? with
  | none => none
  | some comment =>
      if comment == "" || containsSub comment "@license" then none
      else some ((unindent comment).trim)

/-- Minimal scanned-document record for the recursive-resolution claims:
the Analyzer only forwards these values and flips isInline on inline
results. -/
structure ScannedDoc where
  url : String
  isInline : Bool
deriving DecidableEq, Repr

/-- Outcome of resolving an import edge target through _scanResolved, as
distinguished by the catch clause of _scanImport: the thrown error is
either a NoKnownParserError or any other error. -/
inductive ImportFailure where
  | noKnownParser (message : String)
  | otherError (message : String)
deriving DecidableEq, Repr

/-- Outcome of the recursive _scanSource call made for an inline document,
as distinguished by the catch clause of _scanInlineDocument: a
WarningCarryingException or any other error. -/
inductive ScanFailure where
  | warningCarrying (warning : Warning)
  | fatal (message : String)
deriving DecidableEq, Repr

/-- Modelled from the spec: correctSourceRange (model/source-range.ts is
not in src). The spec says an inline warning location is offset-corrected
into the coordinate space of the containing document: line numbers are
shifted by the offset line, columns on the first line are shifted by the
offset column, and the file becomes the container file. -/
def correctPosition (p : SourcePosition) (off : LocationOffset) : SourcePosition :=
  { line := p.line + off.line
    column := if p.line = 0 then p.column + off.col else p.column }

/-- Modelled from the spec: range-level offset correction into the
containing document, applying `correctPosition` to both endpoints and
replacing the file with the container filename when one is given. -/
def correctSourceRange (r : SourceRange) (off : LocationOffset) : SourceRange :=
  { file := match off.filename with
      | some f => f
      | none => r.file
    startPos := correctPosition r.startPos off
    endPos := correctPosition r.endPos off }

/-- Embedding of Analyzer._scanImport (lines 528-554). The recursive
_scanResolved call is a collaborator here; its outcome is the input. On
success the scanned document becomes the dependency; a NoKnownParserError
is swallowed with no dependency and no warning; any other error appends
exactly one could-not-load warning at ERROR severity attached to the
source range of the import, with no dependency. The function is total: an
edge failure never aborts the enclosing scan. -/
def scanImport (scanResult : Except ImportFailure ScannedDoc)
    (importSourceRange : SourceRange) (warnings : List Warning) :
    Option ScannedDoc × List Warning :=
  match scanResult with
  | .ok sd => (some sd, warnings)
  | .error (.noKnownParser _) => (none, warnings)
  | .error (.otherError msg) =>
      (none, warnings ++ [{ code := "could-not-load"
                            message := "Unable to load import: " ++ msg
                            sourceRange := importSourceRange
                            severity := Severity.error }])

/-- Embedding of Analyzer._scanInlineDocument (lines 500-526). The
recursive _scanSource call is a collaborator; its outcome is the input.
The location offset is rebuilt with the container URL as filename. On
success the scanned document is marked inline and returned; a
WarningCarryingException has its warning offset-corrected and appended to
the container warnings, contributing no dependency; any other error
propagates. -/
def scanInlineDocument (inlineOffsetLine inlineOffsetCol : Nat)
    (containerUrl : String) (scanResult : Except ScanFailure ScannedDoc)
    (warnings : List Warning) :
    Except ScanFailure (Option ScannedDoc × List Warning) :=
  let locationOffset : LocationOffset :=
    { line := inlineOffsetLine, col := inlineOffsetCol, filename := some containerUrl }
  match scanResult with
  | .ok sd => .ok (some { sd with isInline := true }, warnings)
  | .error (.warningCarrying w) =>
      .ok (none, warnings ++
        [{ w with sourceRange := correctSourceRange w.sourceRange locationOffset }])
  | .error (.fatal msg) => .error (.fatal msg)

/-- Inbound RPC response payload, from the editor channel: the declared
kinds are resolution and rejection; unknownKind stands for a runtime
message whose kind matches no declared handler (the default branch of the
switch). -/
inductive SettledValue where
  | resolution (value : String)
  | rejection (rejection : String)
  | unknownKind (kind : String)
deriving DecidableEq, Repr

/-- Observable effect of handling one response: nothing, or settling the
deferred with the given identifier. -/
inductive HandleEffect where
  | noEffect
  | resolved (deferredId : Nat) (value : String)
  | rejected (deferredId : Nat) (rejection : String)
deriving DecidableEq, Repr

/-- Embedding of the RPC channel _handleResponse (both copies in the
source are identical). The outstanding-request map sends request ids to
deferred identifiers. An unmatched id returns silently with no effect and
the map untouched; a matched id resolves or rejects the deferred; a
matched id with an unknown kind throws. The map is never modified by this
handler in the source. -/
def handleResponse (outstanding : List (Nat × Nat)) (respId : Nat)
    (value : SettledValue) : Except String (List (Nat × Nat) × HandleEffect) :=
  match outstanding.lookup respId with
  | none => .ok (outstanding, .noEffect)
  | some d =>
      match value with
      | .resolution v => .ok (outstanding, .resolved d v)
      | .rejection e => .ok (outstanding, .rejected d e)
      | .unknownKind k => .error ("Got unknown kind of response: " ++ k)

/-- The two memoizing caches of the Analyzer, keyed by resolved URL. Each
entry holds the identity of the deferred computation (a promise id); the
counter supplies fresh promise identities. -/
structure AnalyzerCaches where
  parsedDocuments : List (String × Nat)
  scannedDocuments : List (String × Nat)
  nextPromiseId : Nat
deriving DecidableEq, Repr

/-- Embedding of the synchronous prefix of Analyzer._scanResolved (lines
417-432): check the scan cache; on a hit return the cached promise; on a
miss create the promise (whose body is deferred behind an await of
Promise.resolve, so no work of it runs yet) and store it in the cache
before returning. The Bool reports whether a new computation was
created. -/
def scanResolvedSync (c : AnalyzerCaches) (resolvedUrl : String) :
    Nat × AnalyzerCaches × Bool :=
  match lookupA c.scannedDocuments resolvedUrl with
  | some cachedResult => (cachedResult, c, false)
  | none =>
      (c.nextPromiseId,
       { c with
         scannedDocuments := (resolvedUrl, c.nextPromiseId) :: c.scannedDocuments
         nextPromiseId := c.nextPromiseId + 1 },
       true)

/-- Embedding of the synchronous prefix of Analyzer._loadResolved (lines
556-584): check the parse cache; on a miss, first consult the loader
(canLoad false throws), then create the parse promise and store it in the
cache before returning, again with the body deferred behind an await of
Promise.resolve. -/
def loadResolvedSync (canLoad : Bool) (c : AnalyzerCaches) (resolvedUrl : String) :
    Except String (Nat × AnalyzerCaches × Bool) :=
  match lookupA c.parsedDocuments resolvedUrl with
  | some cachedResult => .ok (cachedResult, c, false)
  | none =>
      if !canLoad then .error ("Cant load URL: " ++ resolvedUrl)
      else
        .ok (c.nextPromiseId,
             { c with
               parsedDocuments := (resolvedUrl, c.nextPromiseId) :: c.parsedDocuments
               nextPromiseId := c.nextPromiseId + 1 },
             true)

/-- A burst of back-to-back _scanResolved requests for the same URL, all
issued before any suspension point: each request runs the synchronous
prefix in turn. Returns the promise each requester receives, the final
caches, and how many computations were created. -/
def issueRequests (c : AnalyzerCaches) (resolvedUrl : String) :
    Nat → List Nat × AnalyzerCaches × Nat
  | 0 => ([], c, 0)
  | n + 1 =>
      let r := scanResolvedSync c resolvedUrl
      let rest := issueRequests r.2.1 resolvedUrl n
      (r.1 :: rest.1, rest.2.1, (if r.2.2 then 1 else 0) + rest.2.2)

/-- Pluggable URL resolver collaborator, from url-loader (interface
only). -/
structure UrlResolver where
  canResolve : String → Bool
  resolve : String → String

/-- Embedding of Analyzer._resolveUrl (lines 615-619): apply the resolver
when present and willing, otherwise return the URL unchanged. -/
def resolveUrl (resolver : Option UrlResolver) (url : String) : String :=
  match resolver with
  | some r => if r.canResolve url then r.resolve url else url
  | none => url

/-- Embedding of the cache-eviction step of Analyzer.analyzeRoot (lines
392-411): when fresh contents are supplied, delete the scan-cache entry
and the parse-cache entry for the resolved URL; otherwise leave both
caches untouched. -/
def analyzeRootCacheUpdate (resolver : Option UrlResolver) (c : AnalyzerCaches)
    (url : String) (contents : Option String) : AnalyzerCaches :=
  let resolvedUrl := resolveUrl resolver url
  match contents with
  | some _ =>
      { c with
        scannedDocuments := mapDelete c.scannedDocuments resolvedUrl
        parsedDocuments := mapDelete c.parsedDocuments resolvedUrl }
  | none => c

/-- State of one cooperative run of the Analyzer scan pipeline over an
abstract world (a map from URL to the URLs of its import edges; loading
and parsing are assumed to succeed). cache holds the URLs whose scan
promise exists (the keys of _scannedDocuments); queued holds promises
created whose body has not started yet (each body begins with an await of
Promise.resolve); waiting records bodies that have fanned out their
_scanImport awaits and are blocked in Promise.all on the scan promises of
the listed import URLs; settled holds URLs whose scan promise has
resolved. -/
structure AnalyzerRun where
  cache : List String
  queued : List String
  waiting : List (String × List String)
  settled : List String
deriving DecidableEq, Repr

/-- The synchronous fan-out performed while the body of a scan runs: for
each import, _scanImport synchronously enters _scanResolved, which on a
cache miss creates and caches the promise for that URL (its body joining
the microtask queue) and on a hit reuses the cached promise. -/
def fanOut (cache queued : List String) : List String → List String × List String
  | [] => (cache, queued)
  | v :: rest =>
      if v ∈ cache then fanOut cache queued rest
      else fanOut (cache ++ [v]) (queued ++ [v]) rest

/-- One cooperative scheduler step. If some created promise body is still
queued, run it: load and parse its URL, fan out the _scanImport calls for
its import edges, and leave the body blocked in Promise.all on those
promises. Otherwise resolve some blocked body all of whose awaited
promises have settled. When neither is possible the system is quiescent:
with an empty microtask queue and no external events, no further promise
can ever settle. -/
def step (world : String → List String) (s : AnalyzerRun) : AnalyzerRun :=
  match s.queued with
  | u :: rest =>
      let f := fanOut s.cache rest (world u)
      { cache := f.1, queued := f.2
        waiting := s.waiting ++ [(u, world u)], settled := s.settled }
  | [] =>
      match s.waiting.find? (fun p => p.2.all (fun v => decide (v ∈ s.settled))) with
      | some (u, _) =>
          { s with
            waiting := s.waiting.filter (fun p => if p.1 = u then false else true)
            settled := s.settled ++ [u] }
      | none => s

/-- Initial state of analyzeRoot for a root URL: _scanResolved has just
created and cached the root scan promise, whose body is queued. -/
def initRun (root : String) : AnalyzerRun :=
  { cache := [root], queued := [root], waiting := [], settled := [] }

/-- Run the cooperative scheduler for a number of steps. -/
def analyzeRun (world : String → List String) (root : String) : Nat → AnalyzerRun
  | 0 => initRun root
  | n + 1 => step world (analyzeRun world root n)

/-- The two-document cyclic world: a.html imports b.html and b.html
imports a.html; both load and parse successfully. -/
def worldAB : String → List String := fun u =>
  if u = "a.html" then ["b.html"]
  else if u = "b.html" then ["a.html"] else []

/-- The quiescent state the cyclic world reaches after both bodies have
run: each of the two scan bodies is blocked on the scan promise of the
other, the microtask queue is empty, and nothing has settled. -/
def cycleStuckState : AnalyzerRun :=
  { cache := ["a.html", "b.html"]
    queued := []
    waiting := [("a.html", ["b.html"]), ("b.html", ["a.html"])]
    settled := [] }

/-- Scanned event record (from the feature model): a name plus the data
kept for it, opaque here. -/
structure ScannedEvent where
  name : String
  payload : String
deriving DecidableEq, Repr

/-- Scanned polymer property record (from the feature model): a name plus
its data, opaque here. -/
structure ScannedProperty where
  name : String
  payload : String
deriving DecidableEq, Repr

/-- Scanned behavior record, from the feature model as used by the
behavior scanner: className, description, demos, events, properties,
observers and the composed-behavior name list. -/
structure ScannedBehavior where
  className : String
  description : Option String
  demos : List String
  events : List ScannedEvent
  properties : List ScannedProperty
  observers : List String
  behaviors : List String
deriving DecidableEq, Repr

/-- Worker for dedupe, carrying the set of keys already emitted. -/
def dedupeGo {α : Type} (keyFunc : α → String) (seen : List String) :
    List α → List α
  | [] => []
  | x :: xs =>
      if keyFunc x ∈ seen then dedupeGo keyFunc seen xs
      else x :: dedupeGo keyFunc (keyFunc x :: seen) xs

/-- Embedding of dedupe from behavior-scanner.ts (lines 33-47): the source
fills a bucket object keyed by keyFunc, keeping the first element seen for
each key, and reads the bucket back out; for the string keys used here
(event names) JavaScript object enumeration preserves insertion order, so
the result keeps the first occurrence of each key, in first-occurrence
order. -/
def dedupe {α : Type} (array : List α) (keyFunc : α → String) : List α :=
  dedupeGo keyFunc [] array

/-- Modelled from the spec: ScannedBehavior.addProperty
(polymer/behavior-descriptor.ts is not in src). The spec says the property
set is keyed by name with last-write-wins on merge: a property whose name
is already present overwrites the existing entry in place, otherwise it is
appended. List-level form. -/
def addPropertyList (properties : List ScannedProperty) (p : ScannedProperty) :
    List ScannedProperty :=
  if properties.any (fun q => q.name == p.name) then
    properties.map (fun q => if q.name == p.name then p else q)
  else properties ++ [p]

/-- Modelled from the spec: addProperty lifted to the behavior record. -/
def addProperty (b : ScannedBehavior) (p : ScannedProperty) : ScannedBehavior :=
  { b with properties := addPropertyList b.properties p }

/-- Embedding of the merge body of BehaviorVisitor.mergeBehavior (lines
192-224), mutating the preexisting record with data from the new record:
the longer truthy description wins and a falsy one never overwrites;
demos and events are concatenated and events are then deduplicated by
name; each new property is added through addProperty; observers are
concatenated; the composed-behavior lists are concatenated and filtered
by isBehaviorImpl, which drops every entry in which the new record
className occurs as a substring (the indexOf test of the source). -/
def mergeInto (newBehavior behavior : ScannedBehavior) : ScannedBehavior :=
  let behavior1 :=
    if strTruthy newBehavior.description then
      if strTruthy behavior.description then
        if (newBehavior.description.getD "").length > (behavior.description.getD "").length
        then { behavior with description := newBehavior.description }
        else behavior
      else { behavior with description := newBehavior.description }
    else behavior
  let behavior2 := { behavior1 with demos := behavior1.demos ++ newBehavior.demos }
  let behavior3 :=
    { behavior2 with
      events := dedupe (behavior2.events ++ newBehavior.events) (fun e => e.name) }
  let behavior4 := newBehavior.properties.foldl addProperty behavior3
  let behavior5 :=
    { behavior4 with observers := behavior4.observers ++ newBehavior.observers }
  { behavior5 with
    behaviors := (behavior5.behaviors ++ newBehavior.behaviors).filter
      (fun b => !(containsSub b newBehavior.className)) }

/-- Embedding of the search loop of BehaviorVisitor.mergeBehavior: walk
the previously emitted records in insertion order, skip records whose
className differs, merge into the first record sharing the className and
return it (the set keeps the mutated record in place), or return the new
record when no match exists. Also returns the updated record list and
whether a merge happened (in the source this is visible as object
identity: after a merge the current record already sits in the set). -/
def mergeBehavior (behaviors : List ScannedBehavior) (newBehavior : ScannedBehavior) :
    ScannedBehavior × List ScannedBehavior × Bool :=
  match behaviors with
  | [] => (newBehavior, [], false)
  | b :: rest =>
      if newBehavior.className = b.className then
        let m := mergeInto newBehavior b
        (m, m :: rest, true)
      else
        let r := mergeBehavior rest newBehavior
        (r.1, b :: r.2.1, r.2.2)

/-- Estree node type tags relevant to the behavior scanner. -/
inductive EstreeType where
  | identifier
  | memberExpression
  | objectExpression
  | callExpression
  | otherType
deriving DecidableEq, Repr

/-- One element of a behavior array literal: its estree node type and the
result of astValue.getIdentifierName on it (a collaborator from
javascript/ast-value, giving the dotted name of an identifier or member
expression when one exists). -/
structure ArrayElement where
  etype : EstreeType
  idName : Option String
deriving DecidableEq, Repr

/-- The initializer expression of a behavior declaration, as far as the
scanner inspects it. -/
inductive BExpr where
  | arrayExpression (elements : List ArrayElement)
  | objectExpression
  | otherExpression
deriving DecidableEq, Repr

/-- Per-node collaborator outputs used by _initBehavior:
esutil.getAttachedComment, esutil.getEventComments, and the results of
jsdoc tag parsing after docs.annotateBehavior has run (jsdoc.hasTag for
the polymerBehavior tag and jsdoc.getTag for its name argument). -/
structure NodeMeta where
  attachedComment : Option String
  eventComments : List ScannedEvent
  hasPolymerBehaviorTag : Bool
  behaviorTagName : Option String
deriving DecidableEq, Repr

/-- A statement node as seen by _initBehavior: either a variable
declaration carrying the initializers of its declarators, or an expression
statement wrapping an assignment whose right-hand side is recorded. -/
inductive StmtNode where
  | variableDeclaration (nodeMeta : NodeMeta) (declarations : List (Option BExpr))
  | expressionStatement (nodeMeta : NodeMeta) (assignmentRight : Option BExpr)
deriving DecidableEq, Repr

/-- Collaborator outputs attached to a statement node. -/
def stmtMeta : StmtNode → NodeMeta
  | .variableDeclaration m _ => m
  | .expressionStatement m _ => m

/-- Embedding of behaviorExpression (lines 252-261): for an expression
statement the right side of the wrapped assignment, for a variable
declaration the initializer of the first declarator when one exists. -/
def behaviorExpression : StmtNode → Option BExpr
  | .expressionStatement _ right => right
  | .variableDeclaration _ ds =>
      match ds with
      | [] => none
      | d :: _ => d

/-- Embedding of isSimpleBehaviorArray (lines 267-277): true exactly when
the expression is an array literal all of whose elements are member
expressions or identifiers. -/
def isSimpleBehaviorArray : Option BExpr → Bool
  | some (.arrayExpression elements) =>
      elements.all (fun el =>
        el.etype == EstreeType.memberExpression || el.etype == EstreeType.identifier)
  | _ => false

/-- Embedding of BehaviorVisitor._parseChainedBehaviors (lines 226-246):
when the behavior expression is an array literal, collect the identifier
names of its elements in source order and, when at least one name was
found, replace the behaviors list of the current record with them. -/
def parseChainedBehaviors (current : ScannedBehavior) (node : StmtNode) :
    ScannedBehavior :=
  match behaviorExpression node with
  | some (.arrayExpression elements) =>
      let chained := elements.filterMap (fun el => el.idName)
      if chained.length > 0 then { current with behaviors := chained } else current
  | _ => current

/-- The sentinel identifier of the legacy templating mixin (line 49). -/
def templatizer : String := "Polymer.Templatizer"

/-- The comment-based promotion test of _initBehavior: the attached
comment is truthy and mentions the polymerBehavior tag string (the source
negates this as comment falsy or indexOf returning -1). -/
def commentMentionsBehaviorTag : Option String → Bool
  | none => false
  | some c => if c == "" then false else containsSub c "@polymerBehavior"

/-- Scanner state of BehaviorVisitor: the emitted records in insertion
order, the record being parsed when one exists, and whether that record
already sits in the emitted set (true after a merge; in the source this is
object identity inside the Set). -/
structure VisitorState where
  behaviors : List ScannedBehavior
  currentBehavior : Option ScannedBehavior
  currentInSet : Bool
deriving DecidableEq, Repr

/-- Embedding of BehaviorVisitor._finishBehavior (lines 128-132): add the
current record to the emitted set (a no-op when it is already a member,
as after a merge) and clear the current record. Only invoked with a
current record present; modelled as the identity otherwise. -/
def finishBehavior (st : VisitorState) : VisitorState :=
  match st.currentBehavior with
  | none => st
  | some cb =>
      { behaviors := if st.currentInSet then st.behaviors else st.behaviors ++ [cb]
        currentBehavior := none
        currentInSet := false }

/-- Embedding of BehaviorVisitor._initBehavior (lines 140-185). The
candidate is skipped unless its comment mentions the behavior tag or its
name is the templatizer sentinel; a fresh record is started from the
comment and event comments; after jsdoc parsing, a candidate without a
real polymerBehavior tag whose name is not the sentinel is abandoned
(state reset, nothing emitted); the className is the explicit tag name or
else the symbol, and an indeterminable className throws; chained
behaviors are parsed from an array initializer; the record is merged with
a previously emitted record of the same className; and a simple behavior
array is finished (emitted) immediately. -/
def initBehavior (st : VisitorState) (node : StmtNode) (symbol : Option String) :
    Except String VisitorState :=
  let comment := (stmtMeta node).attachedComment
  if commentMentionsBehaviorTag comment = false ∧ symbol ≠ some templatizer then
    .ok st
  else
    let current0 : ScannedBehavior :=
      { className := ""
        description := comment
        demos := []
        events := (stmtMeta node).eventComments
        properties := []
        observers := []
        behaviors := [] }
    if (stmtMeta node).hasPolymerBehaviorTag = false ∧ symbol ≠ some templatizer then
      .ok { st with currentBehavior := none, currentInSet := false }
    else
      let explicitName := (stmtMeta node).behaviorTagName
      let className := jsOr explicitName symbol
      if strTruthy className = false then
        .error ("Unable to determine name for @polymerBehavior: " ++ comment.getD "")
      else
        let current1 := { current0 with className := className.getD "" }
        let current2 := parseChainedBehaviors current1 node
        let m := mergeBehavior st.behaviors current2
        let st2 : VisitorState :=
          { behaviors := m.2.1, currentBehavior := some m.1, currentInSet := m.2.2 }
        if isSimpleBehaviorArray (behaviorExpression node) then .ok (finishBehavior st2)
        else .ok st2

/-- One property entry of an object literal, as the scanner sees it: the
result of esutil.objectKeyToString on its key and the scanned property the
esutil collaborator would build from it. -/
structure ObjectProperty where
  keyName : Option String
  scannedProperty : ScannedProperty
deriving DecidableEq, Repr

/-- The property loop of enterObjectExpression: keys that cannot be
resolved to a static string throw a location-tagged error; keys in the
per-property handler table (declaration-property-handlers, a collaborator
given here as a function from key name to an optional record update) run
their handler; all other entries are recorded as plain scanned
properties. -/
def processProperties (handlers : String → Option (ScannedBehavior → ScannedBehavior))
    (cb : ScannedBehavior) : List ObjectProperty → Except String ScannedBehavior
  | [] => .ok cb
  | prop :: rest =>
      match prop.keyName with
      | none => .error "Cant determine name for property key."
      | some name =>
          match handlers name with
          | some h => processProperties handlers (h cb) rest
          | none => processProperties handlers (addProperty cb prop.scannedProperty) rest

/-- Embedding of BehaviorVisitor.enterObjectExpression (lines 98-121):
with no current record the visitor returns immediately; otherwise the
object literal is folded into the current record property by property and
the record is finished. -/
def enterObjectExpression
    (handlers : String → Option (ScannedBehavior → ScannedBehavior))
    (st : VisitorState) (props : List ObjectProperty) : Except String VisitorState :=
  match st.currentBehavior with
  | none => .ok st
  | some cb =>
      match processProperties handlers cb props with
      | .error e => .error e
      | .ok cb2 => .ok (finishBehavior { st with currentBehavior := some cb2 })

/-- Sample caches: empty, with the promise counter at zero. -/
def cachesEmpty : AnalyzerCaches :=
  { parsedDocuments := [], scannedDocuments := [], nextPromiseId := 0 }

/-- Sample caches holding a parse promise for u.html and cache entries for
v.html in both caches. -/
def cachesSample : AnalyzerCaches :=
  { parsedDocuments := [("u.html", 3), ("v.html", 4)]
    scannedDocuments := [("u.html", 5), ("v.html", 6)]
    nextPromiseId := 7 }

/-- Sample visitor state: nothing emitted, nothing being parsed. -/
def stEmpty : VisitorState :=
  { behaviors := [], currentBehavior := none, currentInSet := false }

/-- Node metadata of a genuinely tagged behavior declaration. -/
def nodeMetaPromoted : NodeMeta :=
  { attachedComment := some "doc with @polymerBehavior tag"
    eventComments := []
    hasPolymerBehaviorTag := true
    behaviorTagName := none }

/-- Node metadata of a comment that merely mentions the tag string without
it parsing as a real doc tag. -/
def nodeMetaMentionOnly : NodeMeta :=
  { attachedComment := some "mentions @polymerBehavior in passing"
    eventComments := []
    hasPolymerBehaviorTag := false
    behaviorTagName := none }

/-- Node metadata of a candidate with a plain comment and no tag. -/
def nodeMetaPlain : NodeMeta :=
  { attachedComment := some "plain comment"
    eventComments := []
    hasPolymerBehaviorTag := false
    behaviorTagName := none }

/-- Sample array elements: a bare identifier and a dotted member. -/
def elemsSample : List ArrayElement :=
  [{ etype := EstreeType.identifier, idName := some "A" },
   { etype := EstreeType.memberExpression, idName := some "Ns.B" }]

/-- Sample declaration whose initializer is a simple behavior array. -/
def nodeArraySample : StmtNode :=
  .variableDeclaration nodeMetaPromoted [some (.arrayExpression elemsSample)]

/-- Sample declaration with a plain untagged comment. -/
def nodePlainSample : StmtNode :=
  .variableDeclaration nodeMetaPlain [some .objectExpression]

/-- Sample declaration whose comment mentions the tag string only. -/
def nodeMentionSample : StmtNode :=
  .variableDeclaration nodeMetaMentionOnly [some .objectExpression]

/-- Sample previously emitted behavior record named X. -/
def oldSample : ScannedBehavior :=
  { className := "X"
    description := some "d"
    demos := ["demo1.html"]
    events := [{ name := "e", payload := "1" }]
    properties := [{ name := "p", payload := "1" }]
    observers := ["obs1"]
    behaviors := ["XImpl", "Y"] }

/-- Sample new behavior record also named X, to be merged. -/
def nbSample : ScannedBehavior :=
  { className := "X"
    description := some "dd"
    demos := ["demo2.html"]
    events := [{ name := "e", payload := "2" }, { name := "f", payload := "3" }]
    properties := [{ name := "p", payload := "2" }, { name := "q", payload := "1" }]
    observers := ["obs2"]
    behaviors := ["Z"] }

/-- Lookup after inserting the same key at the head of the cache. -/
theorem lookupA_cons_self {α : Type} (l : List (String × α)) (k : String) (v : α) :
    lookupA ((k, v) :: l) k = some v := by
  simp [lookupA]

/-- Deleting a key removes its entry. -/
theorem lookupA_mapDelete_self {α : Type} (l : List (String × α)) (k : String) :
    lookupA (mapDelete l k) k = none := by
  induction l with
  | nil => rfl
  | cons p rest ih =>
      obtain ⟨k2, v⟩ := p
      by_cases hk : k2 = k
      · simpa [mapDelete, hk] using ih
      · simp [mapDelete, lookupA, hk, ih]

/-- Deleting one key leaves every other key untouched. -/
theorem lookupA_mapDelete_other {α : Type} (l : List (String × α)) (k v : String)
    (hv : v ≠ k) : lookupA (mapDelete l k) v = lookupA l v := by
  induction l with
  | nil => rfl
  | cons p rest ih =>
      obtain ⟨k2, w⟩ := p
      by_cases hk : k2 = k
      · subst hk
        simp [mapDelete, lookupA, Ne.symm hv, ih]
      · by_cases hkv : k2 = v
        · simp [mapDelete, lookupA, hk, hkv, hv]
        · simp [mapDelete, lookupA, hk, hkv, ih]

/-- A burst of requests that all hit the cache returns the cached promise
to every requester and creates nothing. -/
theorem issueRequests_hit (c : AnalyzerCaches) (u : String) (p : Nat)
    (h : lookupA c.scannedDocuments u = some p) :
    ∀ n, issueRequests c u n = (List.replicate n p, c, 0) := by
  intro n
  induction n with
  | zero => rfl
  | succ k ih =>
      simp [issueRequests, scanResolvedSync, h, ih, List.replicate]

/-- Claim C2: the caches store the pending deferred computation
synchronously, before any asynchronous work of it begins; any number of
back-to-back requests for the same resolved URL issued before a
suspension point cause exactly one scan computation to be created, every
requester receives the identical promise, the scan cache ends with
exactly the one new entry, and a parse-cache request observing a
populated entry is answered with that same pending computation with
nothing created. -/
theorem scanResolved_singleFlight (c d : AnalyzerCaches) (u : String) (n q : Nat)
    (h : lookupA c.scannedDocuments u = none)
    (hd : lookupA d.parsedDocuments u = some q) :
    (issueRequests c u (n + 1)).1 = List.replicate (n + 1) c.nextPromiseId
    ∧ (issueRequests c u (n + 1)).2.2 = 1
    ∧ (issueRequests c u (n + 1)).2.1 =
        { c with
          scannedDocuments := (u, c.nextPromiseId) :: c.scannedDocuments
          nextPromiseId := c.nextPromiseId + 1 }
    ∧ lookupA (scanResolvedSync c u).2.1.scannedDocuments u =
        some (scanResolvedSync c u).1
    ∧ loadResolvedSync true d u = .ok (q, d, false) := by
  have hrest :
      issueRequests
        { c with
          scannedDocuments := (u, c.nextPromiseId) :: c.scannedDocuments
          nextPromiseId := c.nextPromiseId + 1 } u n =
      (List.replicate n c.nextPromiseId,
       { c with
         scannedDocuments := (u, c.nextPromiseId) :: c.scannedDocuments
         nextPromiseId := c.nextPromiseId + 1 }, 0) :=
    issueRequests_hit _ u c.nextPromiseId (lookupA_cons_self _ _ _) n
  refine ⟨?_, ?_, ?_, ?_, ?_⟩
  · simp [issueRequests, scanResolvedSync, h, hrest, List.replicate]
  · simp [issueRequests, scanResolvedSync, h, hrest]
  · simp [issueRequests, scanResolvedSync, h, hrest]
  · simp [scanResolvedSync, h, lookupA_cons_self]
  · simp [loadResolvedSync, hd]

/-- Witness for claim C2 at concrete caches: three back-to-back requests
for u.html on empty caches, and a parse-cache hit on the sample caches. -/
theorem scanResolved_singleFlight_witness :
    (issueRequests cachesEmpty "u.html" 3).1 = List.replicate 3 0
    ∧ (issueRequests cachesEmpty "u.html" 3).2.2 = 1
    ∧ (issueRequests cachesEmpty "u.html" 3).2.1 =
        { cachesEmpty with
          scannedDocuments := [("u.html", 0)]
          nextPromiseId := 1 }
    ∧ lookupA (scanResolvedSync cachesEmpty "u.html").2.1.scannedDocuments "u.html" =
        some (scanResolvedSync cachesEmpty "u.html").1
    ∧ loadResolvedSync true cachesSample "u.html" = .ok (3, cachesSample, false) :=
  scanResolved_singleFlight cachesEmpty cachesSample "u.html" 2 3 rfl rfl

/-- Claim C3: analyzeRoot with fresh contents evicts exactly the scan and
parse cache entries of the resolved URL, leaving every other key served
from cache, and analyzeRoot without fresh contents evicts nothing. -/
theorem analyzeRoot_eviction (resolver : Option UrlResolver) (c : AnalyzerCaches)
    (url contents v : String) (hv : v ≠ resolveUrl resolver url) :
    analyzeRootCacheUpdate resolver c url none = c
    ∧ lookupA (analyzeRootCacheUpdate resolver c url (some contents)).scannedDocuments
        (resolveUrl resolver url) = none
    ∧ lookupA (analyzeRootCacheUpdate resolver c url (some contents)).parsedDocuments
        (resolveUrl resolver url) = none
    ∧ lookupA (analyzeRootCacheUpdate resolver c url (some contents)).scannedDocuments v =
        lookupA c.scannedDocuments v
    ∧ lookupA (analyzeRootCacheUpdate resolver c url (some contents)).parsedDocuments v =
        lookupA c.parsedDocuments v := by
  refine ⟨rfl, ?_, ?_, ?_, ?_⟩
  · simp [analyzeRootCacheUpdate, lookupA_mapDelete_self]
  · simp [analyzeRootCacheUpdate, lookupA_mapDelete_self]
  · simp [analyzeRootCacheUpdate, lookupA_mapDelete_other _ _ _ hv]
  · simp [analyzeRootCacheUpdate, lookupA_mapDelete_other _ _ _ hv]

/-- Witness for claim C3 at concrete inputs: evicting u.html from the
sample caches clears its two entries and leaves v.html untouched. -/
theorem analyzeRoot_eviction_witness :
    analyzeRootCacheUpdate none cachesSample "u.html" none = cachesSample
    ∧ lookupA (analyzeRootCacheUpdate none cachesSample "u.html"
        (some "fresh")).scannedDocuments (resolveUrl none "u.html") = none
    ∧ lookupA (analyzeRootCacheUpdate none cachesSample "u.html"
        (some "fresh")).parsedDocuments (resolveUrl none "u.html") = none
    ∧ lookupA (analyzeRootCacheUpdate none cachesSample "u.html"
        (some "fresh")).scannedDocuments "v.html" =
        lookupA cachesSample.scannedDocuments "v.html"
    ∧ lookupA (analyzeRootCacheUpdate none cachesSample "u.html"
        (some "fresh")).parsedDocuments "v.html" =
        lookupA cachesSample.parsedDocuments "v.html" :=
  analyzeRoot_eviction none cachesSample "u.html" "fresh" "v.html" (by decide)

/-- Claim C4: resolving an import edge whose target fails with the
no-known-parser error contributes no dependency and no warning; any other
failure appends exactly one could-not-load warning at ERROR severity
attached to the sourceRange of the import and contributes no dependency;
a successful target becomes the dependency; in every case the function
returns instead of raising, so the rest of the scan continues. -/
theorem scanImport_error_handling :
    ∀ (sr : SourceRange) (ws : List Warning) (msg : String) (sd : ScannedDoc),
      scanImport (.error (.noKnownParser msg)) sr ws = (none, ws)
      ∧ scanImport (.error (.otherError msg)) sr ws =
          (none, ws ++ [{ code := "could-not-load"
                          message := "Unable to load import: " ++ msg
                          sourceRange := sr
                          severity := Severity.error }])
      ∧ scanImport (.ok sd) sr ws = (some sd, ws) := by
  intro sr ws msg sd
  exact ⟨rfl, rfl, rfl⟩

/-- Claim C5: a warning-carrying failure while recursively scanning an
inline document has its warning offset-corrected into the coordinate
space of the containing document and appended to the container warnings,
contributes no dependency, and processing continues; any other error
propagates; a successful recursive scan is marked inline. -/
theorem scanInlineDocument_error_handling :
    ∀ (l c : Nat) (curl : String) (w : Warning) (ws : List Warning)
      (msg : String) (sd : ScannedDoc),
      scanInlineDocument l c curl (.error (.warningCarrying w)) ws =
        .ok (none,
             ws ++ [{ w with
                      sourceRange := correctSourceRange w.sourceRange
                        { line := l, col := c, filename := some curl } }])
      ∧ scanInlineDocument l c curl (.error (.fatal msg)) ws = .error (.fatal msg)
      ∧ scanInlineDocument l c curl (.ok sd) ws =
          .ok (some { sd with isInline := true }, ws) := by
  intro l c curl w ws msg sd
  exact ⟨rfl, rfl, rfl⟩

/-- Claim C9: getAttachedCommentText returns nothing when the nearest
prior comment is absent, empty, or mentions the license marker, and
otherwise returns that comment unindented and trimmed. -/
theorem getAttachedCommentText_spec :
    getAttachedCommentText [] = none
    ∧ (∀ rest, getAttachedCommentText ("" :: rest) = none)
    ∧ (∀ c rest, containsSub c "@license" = true →
        getAttachedCommentText (c :: rest) = none)
    ∧ (∀ c rest, c ≠ "" → containsSub c "@license" = false →
        getAttachedCommentText (c :: rest) = some ((unindent c).trim)) := by
  refine ⟨rfl, ?_, ?_, ?_⟩
  · intro rest
    rfl
  · intro c rest h
    simp [getAttachedCommentText, h]
  · intro c rest h1 h2
    have hbeq : (c == "") = false := by
      simpa using h1
    simp [getAttachedCommentText, hbeq, h2]

/-- Witness for claim C9: a license comment is dropped, an indented
comment is unindented and trimmed. -/
theorem getAttachedCommentText_witness :
    getAttachedCommentText ["x @license y"] = none
    ∧ getAttachedCommentText ["  hi "] = some ((unindent "  hi ").trim) :=
  ⟨getAttachedCommentText_spec.2.2.1 "x @license y" [] (by decide),
   getAttachedCommentText_spec.2.2.2 "  hi " [] (by decide) (by decide)⟩

/-- Claim C10: an inbound response whose id matches no outstanding request
is silently ignored, returning with no effect, no error, and the
outstanding map untouched; a response with a matched id but an unknown
kind throws. -/
theorem handleResponse_spec (m : List (Nat × Nat)) (respId : Nat)
    (v : SettledValue) (d : Nat) (k : String) :
    (m.lookup respId = none → handleResponse m respId v = .ok (m, .noEffect))
    ∧ (m.lookup respId = some d →
        handleResponse m respId (.unknownKind k) =
          .error ("Got unknown kind of response: " ++ k)) := by
  constructor
  · intro h
    simp [handleResponse, h]
  · intro h
    simp [handleResponse, h]

/-- Witness for claim C10: with one outstanding request of id 1, a
response with id 2 is ignored and a response with id 1 of unknown kind
throws. -/
theorem handleResponse_spec_witness :
    handleResponse [(1, 7)] 2 (.resolution "x") = .ok ([(1, 7)], .noEffect)
    ∧ handleResponse [(1, 7)] 1 (.unknownKind "weird") =
        .error ("Got unknown kind of response: " ++ "weird") :=
  ⟨(handleResponse_spec [(1, 7)] 2 (.resolution "x") 0 "weird").1 (by decide),
   (handleResponse_spec [(1, 7)] 1 (.resolution "x") 7 "weird").2 (by decide)⟩

/-- After two scheduler steps on the cyclic world both scan bodies have
run and each is blocked on the scan promise of the other. -/
theorem analyzeRun_cycle_two :
    analyzeRun worldAB "a.html" 2 = cycleStuckState := by
  decide

/-- The blocked state of the cyclic world is a fixed point of the
scheduler: the microtask queue is empty and no waiting body has all of
its awaited promises settled, so no step can make progress. -/
theorem step_cycleStuck : step worldAB cycleStuckState = cycleStuckState := by
  decide

/-- Claim C1 (refuted): on the cyclic world where a.html imports b.html
and b.html imports a.html, the scan promise of each document awaits the
scan promise of the other through the chain _scanDocument, Promise.all
and _scanImport; after two scheduler steps the system is quiescent with
no promise settled and stays so forever, so the promise returned by
analyzeRoot on a.html never settles, contradicting the claimed
termination. -/
theorem analyzeRoot_cycle_never_settles :
    (∀ fuel : Nat, (analyzeRun worldAB "a.html" fuel).settled = [])
    ∧ (∀ k : Nat, analyzeRun worldAB "a.html" (2 + k) = cycleStuckState)
    ∧ step worldAB cycleStuckState = cycleStuckState := by
  have key : ∀ k : Nat, analyzeRun worldAB "a.html" (2 + k) = cycleStuckState := by
    intro k
    induction k with
    | zero => exact analyzeRun_cycle_two
    | succ n ih =>
        show step worldAB (analyzeRun worldAB "a.html" (2 + n)) = cycleStuckState
        rw [ih, step_cycleStuck]
  refine ⟨?_, key, step_cycleStuck⟩
  intro fuel
  match fuel with
  | 0 => rfl
  | 1 => rfl
  | (n + 2) =>
      have h : n + 2 = 2 + n := by omega
      rw [h, key n]
      rfl

/-- Every element emitted by the dedupe worker has a key outside the seen
set and is the first element of the input carrying its key. -/
theorem dedupeGo_find {α : Type} (keyFunc : α → String) :
    ∀ (l : List α) (seen : List String) (x : α), x ∈ dedupeGo keyFunc seen l →
      keyFunc x ∉ seen ∧ l.find? (fun y => keyFunc y == keyFunc x) = some x := by
  intro l
  induction l with
  | nil =>
      intro seen x hx
      simp [dedupeGo] at hx
  | cons y ys ih =>
      intro seen x hx
      by_cases hy : keyFunc y ∈ seen
      · simp only [dedupeGo, if_pos hy] at hx
        obtain ⟨h1, h2⟩ := ih seen x hx
        refine ⟨h1, ?_⟩
        have hne : ¬((keyFunc y == keyFunc x) = true) := by
          simp only [beq_iff_eq]
          intro hc
          exact h1 (hc ▸ hy)
        exact (List.find?_cons_of_neg ys hne).trans h2
      · simp only [dedupeGo, if_neg hy] at hx
        rcases List.mem_cons.mp hx with rfl | hx2
        · exact ⟨hy, List.find?_cons_of_pos ys (by simp)⟩
        · obtain ⟨h1, h2⟩ := ih _ x hx2
          have h1seen : keyFunc x ∉ seen := fun hc => h1 (List.mem_cons_of_mem _ hc)
          have hne : ¬((keyFunc y == keyFunc x) = true) := by
            simp only [beq_iff_eq]
            intro hc
            exact h1 (by rw [← hc]; exact List.mem_cons_self _ _)
          exact ⟨h1seen, (List.find?_cons_of_neg ys hne).trans h2⟩

/-- An element of the deduplicated list is the first element of the input
with its key. -/
theorem dedupe_find {α : Type} (keyFunc : α → String) (l : List α) (x : α)
    (hx : x ∈ dedupe l keyFunc) :
    l.find? (fun y => keyFunc y == keyFunc x) = some x :=
  (dedupeGo_find keyFunc l [] x hx).2

/-- The keys of a deduplicated list contain no duplicates. -/
theorem dedupeGo_keys_nodup {α : Type} (keyFunc : α → String) :
    ∀ (l : List α) (seen : List String),
      ((dedupeGo keyFunc seen l).map keyFunc).Nodup := by
  intro l
  induction l with
  | nil =>
      intro seen
      simp [dedupeGo]
  | cons y ys ih =>
      intro seen
      by_cases hy : keyFunc y ∈ seen
      · simpa [dedupeGo, hy] using ih seen
      · simp only [dedupeGo, if_neg hy, List.map_cons, List.nodup_cons]
        constructor
        · intro hc
          obtain ⟨x, hx, hkx⟩ := List.mem_map.mp hc
          exact (dedupeGo_find keyFunc ys _ x hx).1 (hkx ▸ List.mem_cons_self _ _)
        · exact ih _

/-- Every key of the input whose key is not yet seen is represented in the
deduplicated output. -/
theorem dedupeGo_complete {α : Type} (keyFunc : α → String) :
    ∀ (l : List α) (seen : List String) (x : α), x ∈ l → keyFunc x ∉ seen →
      ∃ x2 ∈ dedupeGo keyFunc seen l, keyFunc x2 = keyFunc x := by
  intro l
  induction l with
  | nil =>
      intro seen x hx
      simp at hx
  | cons y ys ih =>
      intro seen x hx hns
      by_cases hy : keyFunc y ∈ seen
      · rcases List.mem_cons.mp hx with rfl | hx2
        · exact absurd hy hns
        · simpa [dedupeGo, hy] using ih seen x hx2 hns
      · rcases List.mem_cons.mp hx with rfl | hx2
        · refine ⟨x, ?_, rfl⟩
          simp [dedupeGo, hy]
        · by_cases hk : keyFunc x = keyFunc y
          · exact ⟨y, by simp [dedupeGo, hy], hk.symm⟩
          · have hns2 : keyFunc x ∉ keyFunc y :: seen := by
              simp [hk, hns]
            obtain ⟨x2, hx2m, hk2⟩ := ih (keyFunc y :: seen) x hx2 hns2
            refine ⟨x2, ?_, hk2⟩
            simp only [dedupeGo, if_neg hy]
            exact List.mem_cons_of_mem _ hx2m

/-- The merge loop returns the new record unchanged when no emitted record
shares its className. -/
theorem mergeBehavior_noMatch (nb : ScannedBehavior) :
    ∀ (bs : List ScannedBehavior), (∀ b ∈ bs, b.className ≠ nb.className) →
      mergeBehavior bs nb = (nb, bs, false) := by
  intro bs
  induction bs with
  | nil =>
      intro _
      rfl
  | cons b rest ih =>
      intro h
      have hb : ¬(nb.className = b.className) :=
        fun hc => (h b (List.mem_cons_self _ _)) hc.symm
      simp [mergeBehavior, hb, ih (fun x hx => h x (List.mem_cons_of_mem _ hx))]

/-- The merge loop skips over records whose className differs. -/
theorem mergeBehavior_skip (nb : ScannedBehavior) :
    ∀ (pre rest : List ScannedBehavior), (∀ b ∈ pre, b.className ≠ nb.className) →
      mergeBehavior (pre ++ rest) nb =
        ((mergeBehavior rest nb).1, pre ++ (mergeBehavior rest nb).2.1,
         (mergeBehavior rest nb).2.2) := by
  intro pre
  induction pre with
  | nil =>
      intro rest _
      rfl
  | cons b pre ih =>
      intro rest h
      have hb : ¬(nb.className = b.className) :=
        fun hc => (h b (List.mem_cons_self _ _)) hc.symm
      simp [mergeBehavior, hb, ih rest (fun x hx => h x (List.mem_cons_of_mem _ hx))]

/-- Folding addProperty over a behavior only rewrites the property list. -/
theorem foldl_addProperty_eq :
    ∀ (ps : List ScannedProperty) (b : ScannedBehavior),
      ps.foldl addProperty b =
        { b with properties := ps.foldl addPropertyList b.properties } := by
  intro ps
  induction ps with
  | nil =>
      intro b
      rfl
  | cons p ps ih =>
      intro b
      rw [List.foldl_cons, List.foldl_cons, ih]
      rfl

/-- Field-level description of the merge body. -/
theorem mergeInto_fields (nb old : ScannedBehavior) :
    mergeInto nb old =
      { className := old.className
        description :=
          if strTruthy nb.description then
            if strTruthy old.description then
              if (nb.description.getD "").length > (old.description.getD "").length
              then nb.description else old.description
            else nb.description
          else old.description
        demos := old.demos ++ nb.demos
        events := dedupe (old.events ++ nb.events) (fun e => e.name)
        properties := nb.properties.foldl addPropertyList old.properties
        observers := old.observers ++ nb.observers
        behaviors := (old.behaviors ++ nb.behaviors).filter
          (fun b => !(containsSub b nb.className)) } := by
  simp only [mergeInto, foldl_addProperty_eq]
  split_ifs <;> rfl

/-- Claim C6: two behavior declarations sharing a className yield exactly
one record. The merge loop rewrites the previously emitted record in
place (position preserved, merge flag set so finishing adds no
duplicate), and the merged record obeys the claimed rules: the longer
truthy description wins and a falsy one never overwrites; demos and
events are concatenated with the events then deduplicated by name,
keeping the first occurrence of each name with no duplicate names left
and no name lost; each new property is added or overwrites by name;
observers are concatenated without deduplication; and the
composed-behavior lists are concatenated and then filtered to drop every
entry matching the merged className by substring (the entry contains the
className). -/
theorem mergeBehavior_sameClassName
    (pre post : List ScannedBehavior) (old nb : ScannedBehavior)
    (hpre : ∀ b ∈ pre, b.className ≠ nb.className)
    (hold : old.className = nb.className)
    (hpost : ∀ b ∈ post, b.className ≠ nb.className) :
    mergeBehavior (pre ++ old :: post) nb =
      (mergeInto nb old, pre ++ mergeInto nb old :: post, true)
    ∧ (mergeInto nb old).className = nb.className
    ∧ ((pre ++ mergeInto nb old :: post).filter
        (fun b => b.className == nb.className)).length = 1
    ∧ finishBehavior
        { behaviors := pre ++ mergeInto nb old :: post
          currentBehavior := some (mergeInto nb old)
          currentInSet := true }
        = { behaviors := pre ++ mergeInto nb old :: post
            currentBehavior := none
            currentInSet := false }
    ∧ (strTruthy nb.description = false →
        (mergeInto nb old).description = old.description)
    ∧ (strTruthy nb.description = true → strTruthy old.description = false →
        (mergeInto nb old).description = nb.description)
    ∧ (strTruthy nb.description = true → strTruthy old.description = true →
        (mergeInto nb old).description =
          (if (nb.description.getD "").length > (old.description.getD "").length
           then nb.description else old.description))
    ∧ (mergeInto nb old).demos = old.demos ++ nb.demos
    ∧ (mergeInto nb old).events = dedupe (old.events ++ nb.events) (fun e => e.name)
    ∧ (∀ e ∈ (mergeInto nb old).events,
        (old.events ++ nb.events).find? (fun e2 => e2.name == e.name) = some e)
    ∧ ((mergeInto nb old).events.map (fun e => e.name)).Nodup
    ∧ (∀ e ∈ old.events ++ nb.events,
        ∃ e2 ∈ (mergeInto nb old).events, e2.name = e.name)
    ∧ (mergeInto nb old).properties = nb.properties.foldl addPropertyList old.properties
    ∧ (mergeInto nb old).observers = old.observers ++ nb.observers
    ∧ (mergeInto nb old).behaviors =
        (old.behaviors ++ nb.behaviors).filter (fun b => !(containsSub b nb.className)) := by
  have hcn : (mergeInto nb old).className = nb.className := by
    rw [mergeInto_fields]
    exact hold
  refine ⟨?_, hcn, ?_, rfl, ?_, ?_, ?_, ?_, ?_, ?_, ?_, ?_, ?_, ?_, ?_⟩
  · rw [mergeBehavior_skip nb pre (old :: post) hpre]
    have hfirst : mergeBehavior (old :: post) nb =
        (mergeInto nb old, mergeInto nb old :: post, true) := by
      simp [mergeBehavior, hold.symm]
    rw [hfirst]
  · rw [List.filter_append, List.filter_cons]
    have hpre0 : pre.filter (fun b => b.className == nb.className) = [] := by
      rw [List.filter_eq_nil_iff]
      intro b hb
      simp [beq_iff_eq]
      exact hpre b hb
    have hpost0 : post.filter (fun b => b.className == nb.className) = [] := by
      rw [List.filter_eq_nil_iff]
      intro b hb
      simp [beq_iff_eq]
      exact hpost b hb
    simp [hpre0, hpost0, hcn]
  · intro h
    rw [mergeInto_fields]
    simp [h]
  · intro h1 h2
    rw [mergeInto_fields]
    simp [h1, h2]
  · intro h1 h2
    rw [mergeInto_fields]
    simp [h1, h2]
  · rw [mergeInto_fields]
  · rw [mergeInto_fields]
  · intro e he
    rw [mergeInto_fields] at he
    exact dedupe_find (fun e2 => e2.name) (old.events ++ nb.events) e he
  · rw [mergeInto_fields]
    exact dedupeGo_keys_nodup (fun e => e.name) (old.events ++ nb.events) []
  · intro e he
    rcases dedupeGo_complete (fun e2 => e2.name) (old.events ++ nb.events) [] e he
      (by simp) with ⟨e2, he2, hk⟩
    refine ⟨e2, ?_, hk⟩
    rw [mergeInto_fields]
    exact he2
  · rw [mergeInto_fields]
  · rw [mergeInto_fields]
  · rw [mergeInto_fields]

/-- Witness for claim C6 at concrete records: merging the sample new X
record into the previously emitted X record. -/
theorem mergeBehavior_sameClassName_witness :
    mergeBehavior [oldSample] nbSample =
      (mergeInto nbSample oldSample, [mergeInto nbSample oldSample], true)
    ∧ (mergeInto nbSample oldSample).demos = oldSample.demos ++ nbSample.demos
    ∧ (mergeInto nbSample oldSample).events =
        dedupe (oldSample.events ++ nbSample.events) (fun e => e.name)
    ∧ (mergeInto nbSample oldSample).behaviors =
        (oldSample.behaviors ++ nbSample.behaviors).filter
          (fun b => !(containsSub b nbSample.className)) := by
  have h := mergeBehavior_sameClassName [] [] oldSample nbSample
    (by simp) (by decide) (by simp)
  exact ⟨h.1, h.2.2.2.2.2.2.2.1, h.2.2.2.2.2.2.2.2.1, h.2.2.2.2.2.2.2.2.2.2.2.2.2.2⟩

/-- filterMap loses nothing when the function succeeds on every element. -/
theorem filterMap_isSome_length {α β : Type} (f : α → Option β) :
    ∀ l : List α, (∀ x ∈ l, (f x).isSome) → (l.filterMap f).length = l.length := by
  intro l
  induction l with
  | nil =>
      intro _
      rfl
  | cons x xs ih =>
      intro h
      obtain ⟨y, hy⟩ := Option.isSome_iff_exists.mp (h x (List.mem_cons_self _ _))
      rw [List.filterMap_cons_some hy]
      simp [ih (fun z hz => h z (List.mem_cons_of_mem _ hz))]

/-- An array whose elements are all identifiers or member expressions is
a simple behavior array. -/
theorem isSimpleBehaviorArray_of_all (elems : List ArrayElement)
    (h : ∀ el ∈ elems,
      el.etype = EstreeType.identifier ∨ el.etype = EstreeType.memberExpression) :
    isSimpleBehaviorArray (some (.arrayExpression elems)) = true := by
  simp only [isSimpleBehaviorArray, List.all_eq_true]
  intro el hel
  rcases h el hel with h1 | h1 <;> rw [h1] <;> rfl

/-- Claim C7: a promoted declaration or assignment whose initializer is
an array literal of bare identifier or dotted-member references is
emitted immediately: the record is finished inside initBehavior itself,
its behaviors list is exactly the element names in source order (none
dropped), its property list is empty, and the resulting state has no
current record, so the object-literal visitor path returns it untouched
and is never invoked for this candidate. -/
theorem simpleBehaviorArray_immediate
    (st : VisitorState) (node : StmtNode) (symbol : Option String)
    (elems : List ArrayElement)
    (hcomment : commentMentionsBehaviorTag ((stmtMeta node).attachedComment) = true)
    (htag : (stmtMeta node).hasPolymerBehaviorTag = true)
    (hname : strTruthy (jsOr ((stmtMeta node).behaviorTagName) symbol) = true)
    (harr : behaviorExpression node = some (.arrayExpression elems))
    (hsimple : ∀ el ∈ elems,
      (el.etype = EstreeType.identifier ∨ el.etype = EstreeType.memberExpression)
      ∧ (el.idName).isSome)
    (hfresh : ∀ b ∈ st.behaviors,
      b.className ≠ (jsOr ((stmtMeta node).behaviorTagName) symbol).getD "") :
    initBehavior st node symbol = .ok
      { behaviors := st.behaviors ++
          [{ className := (jsOr ((stmtMeta node).behaviorTagName) symbol).getD ""
             description := (stmtMeta node).attachedComment
             demos := []
             events := (stmtMeta node).eventComments
             properties := []
             observers := []
             behaviors := elems.filterMap (fun el => el.idName) }]
        currentBehavior := none
        currentInSet := false }
    ∧ (elems.filterMap (fun el => el.idName)).length = elems.length
    ∧ (∀ (handlers : String → Option (ScannedBehavior → ScannedBehavior))
        (props : List ObjectProperty),
        enterObjectExpression handlers
          { behaviors := st.behaviors ++
              [{ className := (jsOr ((stmtMeta node).behaviorTagName) symbol).getD ""
                 description := (stmtMeta node).attachedComment
                 demos := []
                 events := (stmtMeta node).eventComments
                 properties := []
                 observers := []
                 behaviors := elems.filterMap (fun el => el.idName) }]
            currentBehavior := none
            currentInSet := false } props
        = .ok
          { behaviors := st.behaviors ++
              [{ className := (jsOr ((stmtMeta node).behaviorTagName) symbol).getD ""
                 description := (stmtMeta node).attachedComment
                 demos := []
                 events := (stmtMeta node).eventComments
                 properties := []
                 observers := []
                 behaviors := elems.filterMap (fun el => el.idName) }]
            currentBehavior := none
            currentInSet := false }) := by
  have hcond1 : ¬(commentMentionsBehaviorTag ((stmtMeta node).attachedComment) = false
      ∧ symbol ≠ some templatizer) := by
    simp [hcomment]
  have hcond2 : ¬((stmtMeta node).hasPolymerBehaviorTag = false
      ∧ symbol ≠ some templatizer) := by
    simp [htag]
  have hcond3 : ¬(strTruthy (jsOr ((stmtMeta node).behaviorTagName) symbol) = false) := by
    simp [hname]
  have hchain : parseChainedBehaviors
      { className := (jsOr ((stmtMeta node).behaviorTagName) symbol).getD ""
        description := (stmtMeta node).attachedComment
        demos := []
        events := (stmtMeta node).eventComments
        properties := []
        observers := []
        behaviors := [] } node =
      { className := (jsOr ((stmtMeta node).behaviorTagName) symbol).getD ""
        description := (stmtMeta node).attachedComment
        demos := []
        events := (stmtMeta node).eventComments
        properties := []
        observers := []
        behaviors := elems.filterMap (fun el => el.idName) } := by
    simp only [parseChainedBehaviors, harr]
    by_cases hlen : (elems.filterMap (fun el => el.idName)).length > 0
    · rw [if_pos hlen]
    · rw [if_neg hlen]
      have hnil : elems.filterMap (fun el => el.idName) = [] := by
        cases hfm : elems.filterMap (fun el => el.idName) with
        | nil => rfl
        | cons a as =>
            rw [hfm] at hlen
            simp at hlen
      rw [hnil]
  refine ⟨?_, ?_, ?_⟩
  · simp only [initBehavior]
    rw [if_neg hcond1, if_neg hcond2, if_neg hcond3, hchain]
    have hmerge := mergeBehavior_noMatch
      { className := (jsOr ((stmtMeta node).behaviorTagName) symbol).getD ""
        description := (stmtMeta node).attachedComment
        demos := []
        events := (stmtMeta node).eventComments
        properties := []
        observers := []
        behaviors := elems.filterMap (fun el => el.idName) } st.behaviors hfresh
    rw [hmerge, harr,
      if_pos (isSimpleBehaviorArray_of_all elems (fun el hel => (hsimple el hel).1))]
    rfl
  · exact filterMap_isSome_length (fun el => el.idName) elems
      (fun el hel => (hsimple el hel).2)
  · intro handlers props
    rfl

/-- Witness for claim C7 at a concrete declaration: a tagged simple
behavior array with two reference elements. -/
theorem simpleBehaviorArray_immediate_witness :
    initBehavior stEmpty nodeArraySample (some "X") = .ok
      { behaviors := [{ className := "X"
                        description := some "doc with @polymerBehavior tag"
                        demos := []
                        events := []
                        properties := []
                        observers := []
                        behaviors := ["A", "Ns.B"] }]
        currentBehavior := none
        currentInSet := false }
    ∧ enterObjectExpression (fun _ => none)
        { behaviors := [{ className := "X"
                          description := some "doc with @polymerBehavior tag"
                          demos := []
                          events := []
                          properties := []
                          observers := []
                          behaviors := ["A", "Ns.B"] }]
          currentBehavior := none
          currentInSet := false } []
      = .ok
        { behaviors := [{ className := "X"
                          description := some "doc with @polymerBehavior tag"
                          demos := []
                          events := []
                          properties := []
                          observers := []
                          behaviors := ["A", "Ns.B"] }]
          currentBehavior := none
          currentInSet := false } := by
  have h := simpleBehaviorArray_immediate stEmpty nodeArraySample (some "X") elemsSample
    (by decide) (by decide) (by decide) (by decide) (by decide) (by decide)
  exact ⟨h.1, h.2.2 (fun _ => none) []⟩

/-- Claim C8: a candidate is promoted only when its attached comment
mentions the behavior doc tag or its name is the templatizer sentinel:
otherwise initBehavior returns the state unchanged and emits nothing; and
a promoted candidate whose parsed doc comment carries no real
polymerBehavior tag, with a non-sentinel name, is abandoned: the scanner
state is reset and the emitted set is untouched. -/
theorem initBehavior_promotion (st : VisitorState) (node : StmtNode)
    (symbol : Option String) :
    (commentMentionsBehaviorTag ((stmtMeta node).attachedComment) = false →
      symbol ≠ some templatizer →
      initBehavior st node symbol = .ok st)
    ∧ (commentMentionsBehaviorTag ((stmtMeta node).attachedComment) = true →
      (stmtMeta node).hasPolymerBehaviorTag = false →
      symbol ≠ some templatizer →
      initBehavior st node symbol =
        .ok { st with currentBehavior := none, currentInSet := false }
      ∧ ({ st with currentBehavior := none, currentInSet := false } : VisitorState).behaviors
          = st.behaviors) := by
  constructor
  · intro h1 h2
    simp only [initBehavior]
    rw [if_pos ⟨h1, h2⟩]
  · intro h1 h2 h3
    refine ⟨?_, rfl⟩
    have hcond1 : ¬(commentMentionsBehaviorTag ((stmtMeta node).attachedComment) = false
        ∧ symbol ≠ some templatizer) := by
      simp [h1]
    simp only [initBehavior]
    rw [if_neg hcond1, if_pos ⟨h2, h3⟩]

/-- Witness for claim C8: a plainly commented candidate is skipped with
the state unchanged, and a candidate whose comment merely mentions the
tag string is abandoned with nothing emitted. -/
theorem initBehavior_promotion_witness :
    initBehavior stEmpty nodePlainSample (some "Y") = .ok stEmpty
    ∧ initBehavior stEmpty nodeMentionSample (some "Y") =
        .ok { stEmpty with currentBehavior := none, currentInSet := false } :=
  ⟨(initBehavior_promotion stEmpty nodePlainSample (some "Y")).1 (by decide) (by decide),
   ((initBehavior_promotion stEmpty nodeMentionSample (some "Y")).2
      (by decide) (by decide) (by decide)).1⟩
